import Mathlib

/-!
# Verification of the WeKnoRust retrieval-and-chat backend

Shallow embedding, in Lean 4, of the parts of the Go backend that the
specification's checked sentences talk about:

* the stream manager (`internal/stream/memory_manager.go` and the Redis
  variant): register / update / complete / get over active streams;
* the remote chat client (`internal/models/chat/remote_api.go`): request
  construction for non-stream and streaming calls, and the streaming
  consumer loop;
* the test-data service embedding-model initialization (model-id format);
* the prompt/context builder (`chat_pipline/into_chat_message.go`):
  markdown-image enrichment and the `INTO_CHAT_MESSAGE` plugin;
* the initialization handler's configuration validation
  (`internal/router/router.go`);
* the authentication middleware (`middleware`).

Time is modelled as natural-number seconds; Go maps become Lean functions
to `Option`; Go `error` results become `Except String`; goroutine-scheduled
deletions become an explicit pending-deletion list discharged by an
explicit elapse step.
-/

namespace WeKnoRust

/-! ## Stream manager data model

`StreamInfo` mirrors `memoryStreamInfo` / `redisStreamInfo`: both Go
structs carry the same seven fields.  References are kept abstract as a
list of opaque entries (the managers only test emptiness and store them).
`lastUpdated` is a `time.Time`, modelled as seconds. -/

structure StreamInfo where
  sessionID : String
  requestID : String
  query : String
  content : String
  references : List String
  lastUpdated : Nat
  isCompleted : Bool
deriving Repr, DecidableEq

/-- The in-memory store: Go's nested map `sessionID -> requestID -> info`
keyed here directly by the pair. -/
abbrev MemStore := String × String → Option StreamInfo

/-- `MemoryStreamManager.RegisterStream`: store a fresh record with empty
content under `(sessionID, requestID)` (overwriting any previous one). -/
def memRegisterStream (st : MemStore) (sessionID requestID query : String)
    (now : Nat) : Except String MemStore :=
  .ok fun k =>
    if k = (sessionID, requestID) then
      some { sessionID, requestID, query, content := "", references := [],
             lastUpdated := now, isCompleted := false }
    else st k

/-- `MemoryStreamManager.UpdateStream`: when the key is present, append the
delta to the stored content, replace references only when a non-empty set
is given, refresh `lastUpdated`; when absent do nothing.  The Go function
returns `nil` on every path, hence always `.ok`. -/
def memUpdateStream (st : MemStore) (sessionID requestID content : String)
    (references : List String) (now : Nat) : Except String MemStore :=
  match st (sessionID, requestID) with
  | none => .ok st
  | some stream =>
    .ok fun k =>
      if k = (sessionID, requestID) then
        some { stream with
               content := stream.content ++ content,
               references := if references.length > 0 then references
                             else stream.references,
               lastUpdated := now }
      else st k

/-- `MemoryStreamManager.CompleteStream`, immediate effect only (the
30-second delayed deletion goroutine is modelled separately below): set
`isCompleted` when the key is present; no other field changes.  Always
returns `nil` in Go, hence `.ok`. -/
def memCompleteStream (st : MemStore) (sessionID requestID : String) :
    Except String MemStore :=
  match st (sessionID, requestID) with
  | none => .ok st
  | some stream =>
    .ok fun k =>
      if k = (sessionID, requestID) then some { stream with isCompleted := true }
      else st k

/-- `MemoryStreamManager.GetStream`: snapshot or absent. -/
def memGetStream (st : MemStore) (sessionID requestID : String) :
    Option StreamInfo :=
  st (sessionID, requestID)

/-! ### Redis stream manager

State: `key -> Option StreamInfo` where the key string is built by
`buildKey`.  The JSON marshal/unmarshal layer is modelled away (values are
stored typed; round-tripping is the identity), so the Go error paths that
only fire on marshal or network failure do not arise; the `redis.Nil`
(absent key) path is the modelled no-op. -/

abbrev RedisStore := String → Option StreamInfo

/-- `RedisStreamManager.buildKey` (`fmt.Sprintf("%s:%s:%s", ...)`); `pfx`
is the manager's key prefix field. -/
def buildKey (pfx sessionID requestID : String) : String :=
  pfx ++ ":" ++ sessionID ++ ":" ++ requestID

/-- `RedisStreamManager.RegisterStream`: SET a fresh record. -/
def redisRegisterStream (pfx : String) (st : RedisStore)
    (sessionID requestID query : String) (now : Nat) : Except String RedisStore :=
  .ok fun k =>
    if k = buildKey pfx sessionID requestID then
      some { sessionID, requestID, query, content := "", references := [],
             lastUpdated := now, isCompleted := false }
    else st k

/-- `RedisStreamManager.UpdateStream`: GET; on `redis.Nil` return `nil`
(key may have expired); otherwise append the delta, replace references if
non-empty, refresh `lastUpdated`, SET back. -/
def redisUpdateStream (pfx : String) (st : RedisStore)
    (sessionID requestID content : String) (references : List String)
    (now : Nat) : Except String RedisStore :=
  match st (buildKey pfx sessionID requestID) with
  | none => .ok st
  | some info =>
    .ok fun k =>
      if k = buildKey pfx sessionID requestID then
        some { info with
               content := info.content ++ content,
               references := if references.length > 0 then references
                             else info.references,
               lastUpdated := now }
      else st k

/-- `RedisStreamManager.CompleteStream`, immediate effect only: GET; on
`redis.Nil` return `nil`; otherwise set `isCompleted := true`, refresh
`lastUpdated`, SET back (the 30-second delayed DEL goroutine is modelled
separately below). -/
def redisCompleteStream (pfx : String) (st : RedisStore)
    (sessionID requestID : String) (now : Nat) : Except String RedisStore :=
  match st (buildKey pfx sessionID requestID) with
  | none => .ok st
  | some info =>
    .ok fun k =>
      if k = buildKey pfx sessionID requestID then
        some { info with isCompleted := true, lastUpdated := now }
      else st k

/-- `RedisStreamManager.GetStream`. -/
def redisGetStream (pfx : String) (st : RedisStore)
    (sessionID requestID : String) : Option StreamInfo :=
  st (buildKey pfx sessionID requestID)

/-! ### Operation sequences over a live stream

The producer-facing mutators between registration and removal are
`UpdateStream` and `CompleteStream`; `GetStream` is read-only.  A list of
such operations (on arbitrary keys) models any interleaving the managers
see while a stream record lives. -/

inductive StreamOp where
  | update (sessionID requestID delta : String) (references : List String) (now : Nat)
  | complete (sessionID requestID : String) (now : Nat)
deriving Repr

/-- Apply one operation to the in-memory store.  The Go calls return `nil`
errors on all modelled paths; an (unreachable) error leaves the store as
it was, matching Go where every error return happens before the write. -/
def memApplyOp (st : MemStore) : StreamOp → MemStore
  | .update s r d refs now =>
    match memUpdateStream st s r d refs now with
    | .ok st' => st'
    | .error _ => st
  | .complete s r _now =>
    match memCompleteStream st s r with
    | .ok st' => st'
    | .error _ => st

def memApplyOps (st : MemStore) (ops : List StreamOp) : MemStore :=
  ops.foldl memApplyOp st

/-- Apply one operation to the Redis store (same error convention). -/
def redisApplyOp (pfx : String) (st : RedisStore) : StreamOp → RedisStore
  | .update s r d refs now =>
    match redisUpdateStream pfx st s r d refs now with
    | .ok st' => st'
    | .error _ => st
  | .complete s r now =>
    match redisCompleteStream pfx st s r now with
    | .ok st' => st'
    | .error _ => st

def redisApplyOps (pfx : String) (st : RedisStore) (ops : List StreamOp) :
    RedisStore :=
  ops.foldl (redisApplyOp pfx) st

/-! ### Timed model for completion-scheduled deletion

Both `CompleteStream` implementations spawn a goroutine that sleeps 30
seconds and then deletes the record.  The timed state pairs the store with
a list of pending deletions `(key, dueTime)`; `elapse t` discharges every
deletion whose due time has been reached by wall-clock time `t`. -/

structure MemTimed where
  store : MemStore
  pending : List ((String × String) × Nat)

/-- `MemoryStreamManager.CompleteStream` with its delayed deletion: set the
completion flag and schedule deletion of the key at `now + 30`. -/
def memCompleteStreamT (st : MemTimed) (sessionID requestID : String)
    (now : Nat) : MemTimed :=
  match st.store (sessionID, requestID) with
  | none => st
  | some stream =>
    { store := fun k =>
        if k = (sessionID, requestID) then some { stream with isCompleted := true }
        else st.store k,
      pending := st.pending ++ [((sessionID, requestID), now + 30)] }

/-- Discharge, at wall-clock time `t`, every scheduled deletion that is
due: the sleeping goroutines that have woken up delete their keys. -/
def memElapse (st : MemTimed) (t : Nat) : MemTimed :=
  { store := fun k =>
      if st.pending.any (fun p => p.1 == k && decide (p.2 ≤ t)) then none
      else st.store k,
    pending := st.pending.filter fun p => !(decide (p.2 ≤ t)) }

/-- `GetStream` observed at wall-clock time `t` (due deletions applied). -/
def memGetStreamAt (st : MemTimed) (t : Nat) (sessionID requestID : String) :
    Option StreamInfo :=
  (memElapse st t).store (sessionID, requestID)

structure RedisTimed where
  store : RedisStore
  pending : List (String × Nat)

/-- `RedisStreamManager.CompleteStream` with its delayed `DEL`: set the
completion flag (refreshing `lastUpdated`), SET back, and schedule `DEL`
of the key at `now + 30`. -/
def redisCompleteStreamT (pfx : String) (st : RedisTimed)
    (sessionID requestID : String) (now : Nat) : RedisTimed :=
  match st.store (buildKey pfx sessionID requestID) with
  | none => st
  | some info =>
    { store := fun k =>
        if k = buildKey pfx sessionID requestID then
          some { info with isCompleted := true, lastUpdated := now }
        else st.store k,
      pending := st.pending ++ [(buildKey pfx sessionID requestID, now + 30)] }

def redisElapse (st : RedisTimed) (t : Nat) : RedisTimed :=
  { store := fun k =>
      if st.pending.any (fun p => p.1 == k && decide (p.2 ≤ t)) then none
      else st.store k,
    pending := st.pending.filter fun p => !(decide (p.2 ≤ t)) }

def redisGetStreamAt (pfx : String) (st : RedisTimed) (t : Nat)
    (sessionID requestID : String) : Option StreamInfo :=
  (redisElapse st t).store (buildKey pfx sessionID requestID)

/-! ## Remote chat client (`internal/models/chat/remote_api.go`)

Go float64 option values are modelled as rationals (only their sign is
consulted); `Thinking *bool` and the qwen `EnableThinking *bool` pointer
with `omitempty` become `Option Bool` (`none` = field absent from the JSON
body). -/

structure ChatMessage where
  role : String
  content : String
deriving Repr, DecidableEq

structure ChatOptions where
  temperature : Rat
  topP : Rat
  seed : Int
  maxTokens : Int
  maxCompletionTokens : Int
  frequencyPenalty : Rat
  presencePenalty : Rat
  thinking : Option Bool
deriving Repr, DecidableEq

/-- The fields of `RemoteAPIChat` that request construction reads (the
`openai.Client` handle itself carries no request content). -/
structure RemoteAPIChat where
  modelName : String
  modelID : String
  baseURL : String
  apiKey : String
deriving Repr, DecidableEq

/-- `openai.ChatCompletionRequest`, restricted to the fields the client
sets; Go zero values are the starting point of `buildChatCompletionRequest`. -/
structure ChatCompletionRequest where
  model : String
  messages : List ChatMessage
  stream : Bool
  temperature : Rat
  topP : Rat
  maxTokens : Int
  maxCompletionTokens : Int
  frequencyPenalty : Rat
  presencePenalty : Rat
deriving Repr, DecidableEq

/-- `QwenChatCompletionRequest`: the embedded standard request plus the
qwen-specific `enable_thinking,omitempty` field. -/
structure QwenChatCompletionRequest where
  toChatCompletionRequest : ChatCompletionRequest
  enableThinking : Option Bool
deriving Repr, DecidableEq

/-- `RemoteAPIChat.convertMessages`. -/
def convertMessages (messages : List ChatMessage) : List ChatMessage :=
  messages.map fun msg => { role := msg.role, content := msg.content }

/-- `strings.HasPrefix`, computed over the character sequences (the
byte-position-based `String.startsWith` does not reduce in the kernel;
this is extensionally the same function). -/
def hasPre (s pre : String) : Bool :=
  pre.data.isPrefixOf s.data

/-- `strings.HasSuffix`, over the character sequences. -/
def hasSuf (s suf : String) : Bool :=
  suf.data.isSuffixOf s.data

/-- `strings.TrimSuffix`. -/
def trimSuf (s suf : String) : String :=
  if hasSuf s suf then s.dropRight suf.length else s

/-- `strings.ToLower` (per-character lowering). -/
def toLowerStr (s : String) : String :=
  ⟨s.data.map Char.toLower⟩

/-- `RemoteAPIChat.isAliyunQwen3Model`. -/
def isAliyunQwen3Model (c : RemoteAPIChat) : Bool :=
  hasPre c.modelName "qwen3-" &&
    c.baseURL == "https://dashscope.aliyuncs.com/compatible-mode/v1"

/-- `RemoteAPIChat.buildChatCompletionRequest`: base request from model
name, converted messages and the stream flag, then each optional parameter
copied only when strictly positive. -/
def buildChatCompletionRequest (c : RemoteAPIChat) (messages : List ChatMessage)
    (opts : Option ChatOptions) (isStream : Bool) : ChatCompletionRequest :=
  let req : ChatCompletionRequest :=
    { model := c.modelName, messages := convertMessages messages,
      stream := isStream, temperature := 0, topP := 0, maxTokens := 0,
      maxCompletionTokens := 0, frequencyPenalty := 0, presencePenalty := 0 }
  match opts with
  | none => req
  | some o =>
    let req := if 0 < o.temperature then { req with temperature := o.temperature } else req
    let req := if 0 < o.topP then { req with topP := o.topP } else req
    let req := if 0 < o.maxTokens then { req with maxTokens := o.maxTokens } else req
    let req := if 0 < o.maxCompletionTokens then
                 { req with maxCompletionTokens := o.maxCompletionTokens } else req
    let req := if 0 < o.frequencyPenalty then
                 { req with frequencyPenalty := o.frequencyPenalty } else req
    let req := if 0 < o.presencePenalty then
                 { req with presencePenalty := o.presencePenalty } else req
    req

/-- `RemoteAPIChat.buildQwenChatCompletionRequest`: wrap the standard
request; on non-stream calls force `enable_thinking = false`. -/
def buildQwenChatCompletionRequest (c : RemoteAPIChat)
    (messages : List ChatMessage) (opts : Option ChatOptions)
    (isStream : Bool) : QwenChatCompletionRequest :=
  let req : QwenChatCompletionRequest :=
    { toChatCompletionRequest := buildChatCompletionRequest c messages opts isStream,
      enableThinking := none }
  if !isStream then { req with enableThinking := some false } else req

/-- The request body a call puts on the wire: either the standard
`openai.ChatCompletionRequest` shape or the qwen shape. -/
inductive SentChatRequest where
  | standard (req : ChatCompletionRequest)
  | qwen (req : QwenChatCompletionRequest)
deriving Repr, DecidableEq

/-- Request sent by `RemoteAPIChat.Chat` (non-stream): qwen3 models on the
Aliyun compatible endpoint take the custom `chatWithQwen` path, everything
else the standard client path. -/
def chatSentRequest (c : RemoteAPIChat) (messages : List ChatMessage)
    (opts : Option ChatOptions) : SentChatRequest :=
  if isAliyunQwen3Model c then
    .qwen (buildQwenChatCompletionRequest c messages opts false)
  else
    .standard (buildChatCompletionRequest c messages opts false)

/-- Request sent by `RemoteAPIChat.ChatStream`: always the standard shape
with `stream = true`, for every model. -/
def chatStreamSentRequest (c : RemoteAPIChat) (messages : List ChatMessage)
    (opts : Option ChatOptions) : SentChatRequest :=
  .standard (buildChatCompletionRequest c messages opts true)

/-- The serialized `enable_thinking` field of a sent request: the standard
shape has no such field; on the qwen shape `omitempty` drops it when the
pointer is nil (`none`). -/
def sentEnableThinkingField : SentChatRequest → Option Bool
  | .standard _ => none
  | .qwen req => req.enableThinking

/-! ### Streaming consumer loop (`RemoteAPIChat.ChatStream` goroutine)

The upstream SSE stream is the sequence of `stream.Recv()` results: a
successful response carries its choices' delta contents; `failure` is any
`Recv` error (`io.EOF` at normal end of stream, or a transport error), so
every terminating upstream stream contains a `failure` event. -/

inductive RecvEvent where
  | response (choices : List String)
  | failure
deriving Repr, DecidableEq

def isFailureEvent : RecvEvent → Bool
  | .failure => true
  | .response _ => false

/-- `types.StreamResponse` restricted to the fields the client emits
(`ResponseType` is always `types.ResponseTypeAnswer`, written "answer"). -/
structure StreamResponse where
  responseType : String
  content : String
  done : Bool
deriving Repr, DecidableEq

/-- The channel messages of the consumer loop: read events until the first
`Recv` error; a non-empty-choices response forwards `Choices[0].Delta.Content`
with `done = false`; the first error emits the single terminal
`done = true` event and stops the goroutine (events after it are never
read).  An event list with no failure models a stream that has not ended
yet: no terminal event has been emitted. -/
def consumeChatStream : List RecvEvent → List StreamResponse
  | [] => []
  | .failure :: _ =>
    [{ responseType := "answer", content := "", done := true }]
  | .response choices :: rest =>
    (match choices with
     | [] => []
     | c :: _ => [{ responseType := "answer", content := c, done := false }]) ++
      consumeChatStream rest

/-- The delta a single successful upstream event contributes, if any. -/
def deltaOf : RecvEvent → Option StreamResponse
  | .response (c :: _) => some { responseType := "answer", content := c, done := false }
  | .response [] => none
  | .failure => none

/-! ## Embedding-model identity (`TestDataService.initEmbeddingModel`)

The dimension is Go `int` after `strconv.Atoi` (validated non-zero), kept
as `Int`; `toString` on `Int` prints as Go's `%d`. -/

/-- Model source chosen by `initEmbeddingModel`: local iff no base URL is
configured.  The `types.ModelSource` constant values are not under `src/`;
modelled from the spec's two variants, "remote" and "local"
(spec 4.1: remote OpenAI-compatible endpoint and local endpoint). -/
def initEmbeddingSource (baseURL : String) : String :=
  if baseURL = "" then "local" else "remote"

/-- The generated model identity: the caller-provided
`INIT_EMBEDDING_MODEL_ID` when set, otherwise
`fmt.Sprintf("builtin:%s:%d", modelName, dimension)`. -/
def initEmbeddingModelID (envModelID modelName : String) (dimension : Int) :
    String :=
  if envModelID = "" then
    "builtin:" ++ modelName ++ ":" ++ toString dimension
  else envModelID

/-- Modelled from the spec: the identity-string format the spec prescribes,
`builtin:<source>:<model-name>:<dim>` (spec 4.1), to compare with the
generated one. -/
def specEmbeddingModelID (source modelName : String) (dimension : Int) :
    String :=
  "builtin:" ++ source ++ ":" ++ modelName ++ ":" ++ toString dimension

/-! ## Prompt/context builder (`chat_pipline/into_chat_message.go`)

`types.ImageInfo` as in `internal/types/chunk.go`. -/

structure ImageInfo where
  url : String
  originalURL : String
  startPos : Int
  endPos : Int
  caption : String
  ocrText : String
deriving Repr, DecidableEq

/-- Split a character list at the first occurrence of `stop`: the regex
character classes `[^\]]*` / `[^)]+` followed by the closing bracket match
exactly up to that first occurrence or fail when it is missing. -/
def splitAtChar (stop : Char) : List Char → Option (List Char × List Char)
  | [] => none
  | c :: rest =>
    if c = stop then some ([], rest)
    else
      match splitAtChar stop rest with
      | some (pre, post) => some (c :: pre, post)
      | none => none

/-- Try to match `markdownImageRegex` = `!\[([^\]]*)\]\(([^)]+)\)` at the
head of the input; on success return (full match, alt text, url, rest of
the input after the match). -/
def tryMatchImageLink : List Char → Option (String × String × String × List Char)
  | '!' :: '[' :: rest =>
    match splitAtChar ']' rest with
    | none => none
    | some (alt, afterAlt) =>
      match afterAlt with
      | '(' :: afterParen =>
        match splitAtChar ')' afterParen with
        | none => none
        | some (url, afterUrl) =>
          if url.isEmpty then none
          else
            some (⟨'!' :: '[' :: (alt ++ ']' :: '(' :: (url ++ [')']))⟩,
                  ⟨alt⟩, ⟨url⟩, afterUrl)
      | _ => none
  | _ => none

/-- Leftmost, non-overlapping scan, as `FindAllStringSubmatch(content, -1)`
performs for this regex: at each position try the pattern; on a match
continue after it, otherwise advance one character.  Each step consumes at
least one character, so `fuel = length of the input` always suffices. -/
def findImageLinksFuel : Nat → List Char → List (String × String × String)
  | 0, _ => []
  | _ + 1, [] => []
  | fuel + 1, c :: rest =>
    match tryMatchImageLink (c :: rest) with
    | some (full, alt, url, remaining) =>
      (full, alt, url) :: findImageLinksFuel fuel remaining
    | none => findImageLinksFuel fuel rest

/-- All matches of `markdownImageRegex` in `content`, in order, as
(full match, alt, url) triples. -/
def findImageLinks (content : String) : List (String × String × String) :=
  findImageLinksFuel content.length content.data

/-- `strings.Replace(s, old, new, 1)`: replace the first occurrence of
`old`; with an empty `old`, Go inserts `new` before the string. -/
def replaceFirstL (old new : List Char) : List Char → List Char
  | [] => []
  | c :: rest =>
    if old.isPrefixOf (c :: rest) then new ++ (c :: rest).drop old.length
    else c :: replaceFirstL old new rest

def replaceFirst (s old new : String) : String :=
  if old = "" then new ++ s
  else ⟨replaceFirstL old.data new.data s.data⟩

/-- Final value of Go's `imageInfoMap` at key `u`: map assignment
overwrites, so the last entry (in slice order) that registered `u` under a
non-empty `URL` or non-empty `OriginalURL` wins. -/
def imageInfoMapLookup (imageInfos : List ImageInfo) (u : String) :
    Option ImageInfo :=
  imageInfos.foldl
    (fun acc i =>
      if (i.url ≠ "" && i.url == u) || (i.originalURL ≠ "" && i.originalURL == u)
      then some i else acc)
    none

/-- The replacement text built for one matched link whose URL is found in
the map: the match itself, a newline, then the caption and OCR lines when
those fields are non-empty. -/
def annotationFor (full : String) (info : ImageInfo) : String :=
  let repl := full ++ "\n"
  let repl := if info.caption ≠ "" then
                repl ++ "Image caption: " ++ info.caption ++ "\n" else repl
  if info.ocrText ≠ "" then repl ++ "Image text: " ++ info.ocrText ++ "\n"
  else repl

/-- The per-match loop of `enrichContentWithImageInfo`: for each match (in
order) mark its URL processed and, when the map holds that URL, replace
the first occurrence of the match text in the current content with the
annotated text. -/
def annotateMatches (imageInfos : List ImageInfo) :
    List (String × String × String) → List String → String →
    (String × List String)
  | [], processed, content => (content, processed)
  | (full, _alt, url) :: ms, processed, content =>
    let processed := url :: processed
    let content :=
      match imageInfoMapLookup imageInfos url with
      | some info => replaceFirst content full (annotationFor full info)
      | none => content
    annotateMatches imageInfos ms processed content

/-- The "additional image information" lines for entries whose URLs were
not processed by the match loop. -/
def additionalImageTexts (imageInfos : List ImageInfo)
    (processed : List String) : List String :=
  imageInfos.foldl
    (fun acc i =>
      if processed.contains i.url || processed.contains i.originalURL then acc
      else
        acc ++
          ((if i.caption ≠ "" then
              ["Image " ++ i.url ++ " caption: " ++ i.caption] else []) ++
           (if i.ocrText ≠ "" then
              ["Image " ++ i.url ++ " text: " ++ i.ocrText] else [])))
    []

/-- `enrichContentWithImageInfo`, over an already-parsed image-info list
(the JSON layer is modelled away; the Go parse-failure branch, which
returns the content unchanged, corresponds to a passage carrying no usable
image-info). -/
def enrichContentWithImageInfo (content : String)
    (imageInfos : List ImageInfo) : String :=
  if imageInfos.length = 0 then content
  else
    let links := findImageLinks content
    let (content, processed) := annotateMatches imageInfos links [] content
    let additional := additionalImageTexts imageInfos processed
    if additional.length > 0 then
      (if content ≠ "" then content ++ "\n\n" else content) ++
        "Additional image information:\n" ++ String.intercalate "\n" additional
    else content

/-- `types.SearchResult`, restricted to the fields the prompt builder
reads; `imageInfo = none` models the empty `ImageInfo` JSON string. -/
structure SearchResult where
  content : String
  imageInfo : Option (List ImageInfo)
deriving Repr, DecidableEq

/-- `getEnrichedPassageForChat`. -/
def getEnrichedPassageForChat (result : SearchResult) : String :=
  match result.imageInfo with
  | none => result.content
  | some infos => enrichContentWithImageInfo result.content infos

/-- Modelled from the spec: the enrichment the spec describes (spec 4.8) —
a single left-to-right pass that, after each markdown image link whose URL
matches an image-info entry, appends the caption and OCR lines.  Used to
compare the implemented enrichment against the spec's words. -/
def specAnnotatePassFuel (imageInfos : List ImageInfo) :
    Nat → List Char → List Char
  | 0, l => l
  | _ + 1, [] => []
  | fuel + 1, c :: rest =>
    match tryMatchImageLink (c :: rest) with
    | some (full, _alt, url, remaining) =>
      (match imageInfoMapLookup imageInfos url with
       | some info => (annotationFor full info).data
       | none => full.data) ++ specAnnotatePassFuel imageInfos fuel remaining
    | none => c :: specAnnotatePassFuel imageInfos fuel rest

/-- Modelled from the spec: annotate every markdown image link in one
pass. -/
def specAnnotateLinks (content : String) (imageInfos : List ImageInfo) :
    String :=
  ⟨specAnnotatePassFuel imageInfos content.length content.data⟩

/-! ## The `INTO_CHAT_MESSAGE` plugin (`PluginIntoChatMessage.OnEvent`)

The `PluginError` type and the `ErrTemplateParse` / `ErrTemplateExecute`
constants live in pipeline files not under `src/`; they are modelled from
the spec ("Failure in template parsing/execution → pipeline error
(`TEMPLATE_PARSE` / `TEMPLATE_EXECUTE`)", spec 4.7) as errors tagged with
those two codes.  Go's `html/template` engine is external; parsing and
execution are oracle parameters. -/

inductive PipelineErrorCode where
  | templateParse
  | templateExecute
deriving Repr, DecidableEq

/-- Modelled from the spec: a pipeline `PluginError`, carrying its
taxonomy code and, after `WithError`, the wrapped underlying error. -/
structure PluginError where
  code : PipelineErrorCode
  underlying : Option String
deriving Repr, DecidableEq

/-- Modelled from the spec: the `TEMPLATE_PARSE` pipeline error. -/
def ErrTemplateParse : PluginError :=
  { code := .templateParse, underlying := none }

/-- Modelled from the spec: the `TEMPLATE_EXECUTE` pipeline error. -/
def ErrTemplateExecute : PluginError :=
  { code := .templateExecute, underlying := none }

/-- Modelled from the spec: `PluginError.WithError` attaches the
underlying error, keeping the code. -/
def PluginError.withErr (e : PluginError) (err : String) : PluginError :=
  { e with underlying := some err }

/-- The data handed to `tmpl.Execute`. -/
structure TemplateData where
  query : String
  contexts : List String
  currentTime : String
  currentWeek : String

/-- `types.ChatManage`, restricted to the fields `OnEvent` reads and
writes (`SummaryConfig.ContextTemplate` inlined as `contextTemplate`). -/
structure ChatManage where
  query : String
  mergeResult : List SearchResult
  contextTemplate : String
  userContent : String

/-- The observable outcome of one `OnEvent` call: the returned
`*PluginError` (from the plugin itself or from `next()`), the chat state
afterwards, and whether the `next()` continuation was invoked. -/
structure OnEventResult where
  err : Option PluginError
  chat : ChatManage
  nextInvoked : Bool

/-- `PluginIntoChatMessage.OnEvent`: build the enriched passages, parse
the session's context template, execute it over
`{Query, Contexts, CurrentTime, CurrentWeek}`, store the result in
`UserContent` and continue with `next()`; a parse failure returns
`ErrTemplateParse.WithError(err)` and an execute failure
`ErrTemplateExecute.WithError(err)`, in both cases without calling
`next()`. -/
def onEventIntoChatMessage {τ : Type}
    (parseTemplate : String → Except String τ)
    (executeTemplate : τ → TemplateData → Except String String)
    (now week : String) (chatManage : ChatManage)
    (next : ChatManage → Option PluginError) : OnEventResult :=
  let passages := chatManage.mergeResult.map getEnrichedPassageForChat
  match parseTemplate chatManage.contextTemplate with
  | .error e => { err := some (ErrTemplateParse.withErr e),
                  chat := chatManage, nextInvoked := false }
  | .ok tmpl =>
    match executeTemplate tmpl
        { query := chatManage.query, contexts := passages,
          currentTime := now, currentWeek := week } with
    | .error e => { err := some (ErrTemplateExecute.withErr e),
                    chat := chatManage, nextInvoked := false }
    | .ok userContent =>
      let chat := { chatManage with userContent := userContent }
      { err := next chat, chat := chat, nextInvoked := true }

/-! ## Initialization configuration validation
(`InitializationHandler.Initialize`, `internal/router/router.go`)

Only the request fields the validation sequence consults are embedded;
fields the handler reads after validation (API keys, sources, ...) are
irrelevant to the validation outcome and omitted.  The MinIO environment
variables are passed as parameters. -/

structure VLMConfig where
  modelName : String
  baseURL : String
deriving Repr, DecidableEq

structure COSConfig where
  secretID : String
  secretKey : String
  region : String
  bucketName : String
  appID : String
deriving Repr, DecidableEq

structure MinioConfig where
  bucketName : String
deriving Repr, DecidableEq

structure MultimodalConfig where
  enabled : Bool
  vlm : Option VLMConfig
  cos : Option COSConfig
  minio : Option MinioConfig
deriving Repr, DecidableEq

structure RerankConfig where
  enabled : Bool
  modelName : String
  baseURL : String
deriving Repr, DecidableEq

structure DocumentSplittingConfig where
  chunkSize : Int
  chunkOverlap : Int
  separators : List String
deriving Repr, DecidableEq

structure InitializationRequest where
  storageType : String
  rerank : RerankConfig
  multimodal : MultimodalConfig
  documentSplitting : DocumentSplittingConfig
deriving Repr, DecidableEq

/-- The error responses `Initialize` can emit during validation: every
validation branch calls `errors.NewBadRequestError(message)`. -/
inductive InitValidationError where
  | badRequest (message : String)
deriving Repr, DecidableEq

/-- The multimodal-configuration block of `Initialize` (runs only when
multimodal is enabled; unknown storage types skip the storage check). -/
def validateMultimodal (req : InitializationRequest)
    (minioAccessKeyID minioSecretAccessKey : String) :
    Option InitValidationError :=
  if req.multimodal.enabled then
    let storageType := toLowerStr req.storageType
    match req.multimodal.vlm with
    | none => some (.badRequest "VLM configuration is required when multimodal is enabled")
    | some vlm =>
      if vlm.modelName = "" || vlm.baseURL = "" then
        some (.badRequest "VLM configuration is incomplete")
      else if storageType = "cos" then
        match req.multimodal.cos with
        | none => some (.badRequest "COS configuration is incomplete")
        | some cos =>
          if cos.secretID = "" || cos.secretKey = "" || cos.region = "" ||
             cos.bucketName = "" || cos.appID = "" then
            some (.badRequest "COS configuration is incomplete")
          else none
      else if storageType = "minio" then
        match req.multimodal.minio with
        | none => some (.badRequest "MinIO configuration is incomplete")
        | some minio =>
          if minio.bucketName = "" || minioAccessKeyID = "" ||
             minioSecretAccessKey = "" then
            some (.badRequest "MinIO configuration is incomplete")
          else none
      else none
  else none

/-- The full validation sequence of `Initialize`, in source order:
multimodal block, rerank block, chunk-overlap check, separators check. -/
def validateInitializationRequest (req : InitializationRequest)
    (minioAccessKeyID minioSecretAccessKey : String) :
    Option InitValidationError :=
  match validateMultimodal req minioAccessKeyID minioSecretAccessKey with
  | some e => some e
  | none =>
    if req.rerank.enabled && (req.rerank.modelName = "" || req.rerank.baseURL = "") then
      some (.badRequest "When Rerank is enabled, both model name and Base URL are required")
    else if req.documentSplitting.chunkSize ≤ req.documentSplitting.chunkOverlap then
      some (.badRequest "Chunk overlap must be less than chunk size")
    else if req.documentSplitting.separators.length = 0 then
      some (.badRequest "Document separators cannot be empty")
    else none

/-- `Initialize` after a successful JSON bind, over an abstract system
state `σ` (tenant / model / knowledge-base stores): every validation
failure returns the error without touching the state; only when all
validations pass does the handler run its mutating remainder `proceed`
(tenant, model and knowledge-base creation). -/
def initializeHandler {σ ρ : Type} (req : InitializationRequest)
    (minioAccessKeyID minioSecretAccessKey : String) (st : σ)
    (proceed : σ → σ × ρ) : σ × (InitValidationError ⊕ ρ) :=
  match validateInitializationRequest req minioAccessKeyID minioSecretAccessKey with
  | some e => (st, Sum.inl e)
  | none =>
    let r := proceed st
    (r.1, Sum.inr r.2)

/-! ## Authentication middleware (`middleware.Auth`, `isNoAuthAPI`) -/

/-- The no-auth endpoint table.  Go iterates the map in unspecified order;
the result of `isNoAuthAPI` is a disjunction over entries and therefore
order-independent, so a fixed list is faithful. -/
def noAuthAPI : List (String × List String) :=
  [("/api/v1/test-data", ["GET"]),
   ("/api/v1/tenants", ["POST"]),
   ("/api/v1/initialization/*", ["GET", "POST"])]

/-- `isNoAuthAPI`: entries ending in `*` match by prefix (after
`strings.TrimSuffix` of the `*`), others by full path; the method must be
listed. -/
def isNoAuthAPI (path method : String) : Bool :=
  noAuthAPI.any fun api =>
    if hasSuf api.1 "*" then
      hasPre path (trimSuf api.1 "*") && api.2.contains method
    else
      path == api.1 && api.2.contains method

/-- `types.Tenant`, restricted to the fields the middleware reads. -/
structure Tenant where
  id : Nat
  apiKey : String
deriving Repr, DecidableEq

/-- Outcome of the middleware: pass the request on (with the tenant
context set when the request was authenticated), or reply 401 and abort. -/
inductive AuthOutcome where
  | next (tenant : Option (Nat × Tenant))
  | abort401
deriving Repr, DecidableEq

/-- `middleware.Auth`: OPTIONS requests and no-auth endpoints pass
through; otherwise the `X-API-Key` header must be non-empty, must parse to
a tenant id, the tenant must load, exist, and store exactly that key.
`extract` is `TenantService.ExtractTenantIDFromAPIKey` and `getTenant` is
`TenantService.GetTenantByID` (external collaborators, passed as
oracles). -/
def authMiddleware (extract : String → Except String Nat)
    (getTenant : Nat → Except String (Option Tenant))
    (method path apiKey : String) : AuthOutcome :=
  if method = "OPTIONS" then .next none
  else if isNoAuthAPI path method then .next none
  else if apiKey = "" then .abort401
  else
    match extract apiKey with
    | .error _ => .abort401
    | .ok tenantID =>
      match getTenant tenantID with
      | .error _ => .abort401
      | .ok none => .abort401
      | .ok (some t) =>
        if t.apiKey ≠ apiKey then .abort401
        else .next (some (tenantID, t))

/-! ## Theorems -/

/-- C2: a qwen3-family model on the Aliyun compatible endpoint sends
`enable_thinking = false` on non-stream calls; streaming calls use the
standard request shape, which has no `enable_thinking` field. -/
theorem qwen3_enable_thinking_requests (c : RemoteAPIChat)
    (messages : List ChatMessage) (opts : Option ChatOptions)
    (h : isAliyunQwen3Model c = true) :
    sentEnableThinkingField (chatSentRequest c messages opts) = some false ∧
    chatStreamSentRequest c messages opts =
      .standard (buildChatCompletionRequest c messages opts true) ∧
    sentEnableThinkingField (chatStreamSentRequest c messages opts) = none := by
  refine ⟨?_, rfl, rfl⟩
  simp [chatSentRequest, h, buildQwenChatCompletionRequest, sentEnableThinkingField]

theorem qwen3_enable_thinking_requests_witness :
    isAliyunQwen3Model
      { modelName := "qwen3-32b", modelID := "qwen3-32b",
        baseURL := "https://dashscope.aliyuncs.com/compatible-mode/v1",
        apiKey := "k" } = true ∧
    (sentEnableThinkingField
        (chatSentRequest
          { modelName := "qwen3-32b", modelID := "qwen3-32b",
            baseURL := "https://dashscope.aliyuncs.com/compatible-mode/v1",
            apiKey := "k" } [] none) = some false ∧
      chatStreamSentRequest
          { modelName := "qwen3-32b", modelID := "qwen3-32b",
            baseURL := "https://dashscope.aliyuncs.com/compatible-mode/v1",
            apiKey := "k" } [] none =
        .standard (buildChatCompletionRequest
          { modelName := "qwen3-32b", modelID := "qwen3-32b",
            baseURL := "https://dashscope.aliyuncs.com/compatible-mode/v1",
            apiKey := "k" } [] none true) ∧
      sentEnableThinkingField
        (chatStreamSentRequest
          { modelName := "qwen3-32b", modelID := "qwen3-32b",
            baseURL := "https://dashscope.aliyuncs.com/compatible-mode/v1",
            apiKey := "k" } [] none) = none) :=
  ⟨by decide, qwen3_enable_thinking_requests _ [] none (by decide)⟩

/-- The consumer loop's output, in the terminating case: the deltas of the
events that precede the first `Recv` error, in arrival order, followed by
the single terminal event. -/
theorem consumeChatStream_eq_deltas_append_done (events : List RecvEvent)
    (h : events.any isFailureEvent = true) :
    consumeChatStream events =
      ((events.takeWhile fun e => !isFailureEvent e).filterMap deltaOf) ++
        [{ responseType := "answer", content := "", done := true }] := by
  induction events with
  | nil => simp at h
  | cons e rest ih =>
    cases e with
    | failure =>
      simp [consumeChatStream, List.takeWhile, isFailureEvent]
    | response choices =>
      have h' : rest.any isFailureEvent = true := by
        simpa [isFailureEvent] using h
      cases choices with
      | nil =>
        simpa [consumeChatStream, List.takeWhile, isFailureEvent, deltaOf]
          using ih h'
      | cons c cs =>
        simpa [consumeChatStream, List.takeWhile, isFailureEvent, deltaOf]
          using ih h'

theorem deltaOf_done_false (e : RecvEvent) (r : StreamResponse)
    (h : deltaOf e = some r) : r.done = false := by
  cases e with
  | failure => simp [deltaOf] at h
  | response choices =>
    cases choices with
    | nil => simp [deltaOf] at h
    | cons c cs =>
      simp [deltaOf] at h
      simp [← h]

/-- C3: for a streaming chat call whose upstream stream terminates (every
`Recv` sequence ends with an error event, `io.EOF` at normal end), the
emitted sequence is exactly the partial deltas in arrival order followed
by one terminal `done = true` event; each delta has `done = false`, and
the channel is closed after the terminal event (the output list ends
there). -/
theorem chat_stream_order_and_single_done (events : List RecvEvent)
    (h : events.any isFailureEvent = true) :
    consumeChatStream events =
      ((events.takeWhile fun e => !isFailureEvent e).filterMap deltaOf) ++
        [{ responseType := "answer", content := "", done := true }] ∧
    (consumeChatStream events).countP (fun r => r.done) = 1 ∧
    ∀ r ∈ (events.takeWhile fun e => !isFailureEvent e).filterMap deltaOf,
      r.done = false := by
  have heq := consumeChatStream_eq_deltas_append_done events h
  have hdeltas : ∀ r ∈ (events.takeWhile fun e => !isFailureEvent e).filterMap deltaOf,
      r.done = false := by
    intro r hr
    obtain ⟨e, _, he⟩ := List.mem_filterMap.mp hr
    exact deltaOf_done_false e r he
  refine ⟨heq, ?_, hdeltas⟩
  rw [heq, List.countP_append]
  have hzero : ((events.takeWhile fun e => !isFailureEvent e).filterMap deltaOf).countP
      (fun r => r.done) = 0 := by
    rw [List.countP_eq_zero]
    intro r hr
    simp [hdeltas r hr]
  simp [hzero, List.countP_cons]

theorem chat_stream_order_and_single_done_witness :
    ([RecvEvent.response ["He"], .response [], .response ["llo"],
        .failure].any isFailureEvent = true) ∧
    (consumeChatStream [RecvEvent.response ["He"], .response [], .response ["llo"], .failure] =
      (([RecvEvent.response ["He"], .response [], .response ["llo"],
          .failure].takeWhile fun e => !isFailureEvent e).filterMap deltaOf) ++
        [{ responseType := "answer", content := "", done := true }] ∧
      (consumeChatStream [RecvEvent.response ["He"], .response [], .response ["llo"],
          .failure]).countP (fun r => r.done) = 1 ∧
      ∀ r ∈ ([RecvEvent.response ["He"], .response [], .response ["llo"],
          .failure].takeWhile fun e => !isFailureEvent e).filterMap deltaOf,
        r.done = false) :=
  ⟨by decide, chat_stream_order_and_single_done _ (by decide)⟩

/-- C6 counterexample: with `INIT_EMBEDDING_MODEL_ID` unset, the generated
identity for a remote model named "bge-m3" with dimension 1024 is
`builtin:bge-m3:1024`, which differs from the spec's
`builtin:<source>:<model-name>:<dim>` format instantiated at that model's
source, name and dimension: the `<source>` component is absent. -/
theorem embedding_model_id_counterexample :
    initEmbeddingModelID "" "bge-m3" 1024 = "builtin:bge-m3:1024" ∧
    initEmbeddingSource "https://api.example.com/v1" = "remote" ∧
    specEmbeddingModelID "remote" "bge-m3" 1024 = "builtin:remote:bge-m3:1024" ∧
    initEmbeddingModelID "" "bge-m3" 1024 ≠
      specEmbeddingModelID (initEmbeddingSource "https://api.example.com/v1")
        "bge-m3" 1024 :=
  ⟨by decide, by decide, by decide, by decide⟩

/-- C6 (amended): when no caller-provided model ID is configured, the
embedding model's identity string is generated in the format
`builtin:<model-name>:<dim>` — without a source component. -/
theorem embedding_model_id_format (envModelID modelName : String)
    (dimension : Int) (h : envModelID = "") :
    initEmbeddingModelID envModelID modelName dimension =
      "builtin:" ++ modelName ++ ":" ++ toString dimension := by
  simp [initEmbeddingModelID, h]

theorem embedding_model_id_format_witness :
    ("" : String) = "" ∧
    initEmbeddingModelID "" "bge-m3" 1024 =
      "builtin:" ++ "bge-m3" ++ ":" ++ toString (1024 : Int) :=
  ⟨rfl, embedding_model_id_format "" "bge-m3" 1024 rfl⟩

/-- C7 (failing input): on a passage whose content holds the same image
link twice, `enrichContentWithImageInfo` appends the caption annotation
twice after the first occurrence of the link and leaves the second
occurrence un-annotated (each loop iteration replaces the first occurrence
of the matched text), diverging from the per-link annotation the spec and
the function's own comments describe, here computed by
`specAnnotateLinks`. -/
theorem enrich_duplicate_link_divergence :
    enrichContentWithImageInfo "![a](u)![a](u)"
        [{ url := "u", originalURL := "", startPos := 0, endPos := 0,
           caption := "c", ocrText := "" }] =
      "![a](u)\nImage caption: c\n\nImage caption: c\n![a](u)" ∧
    specAnnotateLinks "![a](u)![a](u)"
        [{ url := "u", originalURL := "", startPos := 0, endPos := 0,
           caption := "c", ocrText := "" }] =
      "![a](u)\nImage caption: c\n![a](u)\nImage caption: c\n" ∧
    enrichContentWithImageInfo "![a](u)![a](u)"
        [{ url := "u", originalURL := "", startPos := 0, endPos := 0,
           caption := "c", ocrText := "" }] ≠
      specAnnotateLinks "![a](u)![a](u)"
        [{ url := "u", originalURL := "", startPos := 0, endPos := 0,
           caption := "c", ocrText := "" }] :=
  ⟨by decide, by decide, by decide⟩

/-- Any request with `chunk_overlap ≥ chunk_size` fails validation with a
bad-request error (whichever validation branch fires first, every branch
is a bad-request). -/
theorem validate_rejects_large_overlap (req : InitializationRequest)
    (minioAccessKeyID minioSecretAccessKey : String)
    (h : req.documentSplitting.chunkSize ≤ req.documentSplitting.chunkOverlap) :
    ∃ message, validateInitializationRequest req minioAccessKeyID
      minioSecretAccessKey = some (.badRequest message) := by
  unfold validateInitializationRequest
  cases hm : validateMultimodal req minioAccessKeyID minioSecretAccessKey with
  | some e =>
    cases e with
    | badRequest m => exact ⟨m, rfl⟩
  | none =>
    by_cases hr : (req.rerank.enabled &&
        (decide (req.rerank.modelName = "") || decide (req.rerank.baseURL = ""))) = true
    · exact ⟨"When Rerank is enabled, both model name and Base URL are required",
        by simp [hr]⟩
    · exact ⟨"Chunk overlap must be less than chunk size", by simp [hr, h]⟩

/-- C8: a submitted configuration with `chunk_overlap ≥ chunk_size` is
rejected by `Initialize`'s validation with a bad-request error, and the
mutating remainder of the handler never runs: the system state is returned
unchanged. -/
theorem chunk_overlap_rejected_without_state_change {σ ρ : Type}
    (req : InitializationRequest) (minioAccessKeyID minioSecretAccessKey : String)
    (st : σ) (proceed : σ → σ × ρ)
    (h : req.documentSplitting.chunkSize ≤ req.documentSplitting.chunkOverlap) :
    ∃ message,
      initializeHandler req minioAccessKeyID minioSecretAccessKey st proceed =
        (st, Sum.inl (.badRequest message)) := by
  obtain ⟨m, hm⟩ :=
    validate_rejects_large_overlap req minioAccessKeyID minioSecretAccessKey h
  exact ⟨m, by simp [initializeHandler, hm]⟩

theorem chunk_overlap_rejected_without_state_change_witness :
    (({ storageType := "minio",
        rerank := { enabled := false, modelName := "", baseURL := "" },
        multimodal := { enabled := false, vlm := none, cos := none, minio := none },
        documentSplitting :=
          { chunkSize := 512, chunkOverlap := 512, separators := ["\n"] } } :
        InitializationRequest).documentSplitting.chunkSize ≤
      ({ storageType := "minio",
         rerank := { enabled := false, modelName := "", baseURL := "" },
         multimodal := { enabled := false, vlm := none, cos := none, minio := none },
         documentSplitting :=
           { chunkSize := 512, chunkOverlap := 512, separators := ["\n"] } } :
         InitializationRequest).documentSplitting.chunkOverlap) ∧
    ∃ message,
      initializeHandler
          { storageType := "minio",
            rerank := { enabled := false, modelName := "", baseURL := "" },
            multimodal := { enabled := false, vlm := none, cos := none, minio := none },
            documentSplitting :=
              { chunkSize := 512, chunkOverlap := 512, separators := ["\n"] } }
          "ak" "sk" (0 : Nat) (fun s => (s + 1, "created")) =
        ((0 : Nat), Sum.inl (.badRequest message)) :=
  ⟨by decide,
   chunk_overlap_rejected_without_state_change _ "ak" "sk" 0 _ (by decide)⟩

/-- C9: in the `INTO_CHAT_MESSAGE` step, a context-template parse failure
returns a `TEMPLATE_PARSE` pipeline error and an execution failure a
`TEMPLATE_EXECUTE` pipeline error; in both cases the chat state is left
untouched and the `next()` continuation is not invoked, halting the plugin
chain. -/
theorem into_chat_message_template_errors {τ : Type}
    (parseTemplate : String → Except String τ)
    (executeTemplate : τ → TemplateData → Except String String)
    (now week : String) (cm : ChatManage)
    (next : ChatManage → Option PluginError) :
    (∀ e, parseTemplate cm.contextTemplate = .error e →
      onEventIntoChatMessage parseTemplate executeTemplate now week cm next =
        { err := some { code := .templateParse, underlying := some e },
          chat := cm, nextInvoked := false }) ∧
    (∀ tmpl e, parseTemplate cm.contextTemplate = .ok tmpl →
      executeTemplate tmpl
          { query := cm.query,
            contexts := cm.mergeResult.map getEnrichedPassageForChat,
            currentTime := now, currentWeek := week } = .error e →
      onEventIntoChatMessage parseTemplate executeTemplate now week cm next =
        { err := some { code := .templateExecute, underlying := some e },
          chat := cm, nextInvoked := false }) := by
  constructor
  · intro e he
    simp [onEventIntoChatMessage, he, ErrTemplateParse, PluginError.withErr]
  · intro tmpl e hp hex
    simp [onEventIntoChatMessage, hp, hex, ErrTemplateExecute, PluginError.withErr]

theorem into_chat_message_template_errors_witness :
    ((fun _ : String => (Except.error "unclosed action" : Except String Unit))
        ({ query := "q", mergeResult := [], contextTemplate := "broken template",
           userContent := "" } : ChatManage).contextTemplate =
      .error "unclosed action") ∧
    onEventIntoChatMessage (fun _ : String => (Except.error "unclosed action" : Except String Unit))
        (fun _ _ => .ok "") "2026-10-11 00:00:00" "Saturday"
        { query := "q", mergeResult := [], contextTemplate := "broken template",
          userContent := "" }
        (fun _ => none) =
      { err := some { code := .templateParse, underlying := some "unclosed action" },
        chat := { query := "q", mergeResult := [], contextTemplate := "broken template",
                  userContent := "" },
        nextInvoked := false } :=
  ⟨rfl,
   (into_chat_message_template_errors
      (fun _ : String => (Except.error "unclosed action" : Except String Unit))
      (fun _ _ => .ok "") "2026-10-11 00:00:00" "Saturday"
      { query := "q", mergeResult := [], contextTemplate := "broken template",
        userContent := "" }
      (fun _ => none)).1 "unclosed action" rfl⟩

/-- Exactly which (path, method) pairs the no-auth table admits. -/
theorem isNoAuthAPI_iff (path method : String) :
    isNoAuthAPI path method = true ↔
      (path = "/api/v1/test-data" ∧ method = "GET") ∨
      (path = "/api/v1/tenants" ∧ method = "POST") ∨
      (hasPre path "/api/v1/initialization/" = true ∧
        (method = "GET" ∨ method = "POST")) := by
  have h1 : hasSuf "/api/v1/test-data" "*" = false := by decide
  have h2 : hasSuf "/api/v1/tenants" "*" = false := by decide
  have h3 : hasSuf "/api/v1/initialization/*" "*" = true := by decide
  have h4 : trimSuf "/api/v1/initialization/*" "*" = "/api/v1/initialization/" := by
    decide
  simp [isNoAuthAPI, noAuthAPI, h1, h2, h3, h4, List.contains, List.elem]

/-- C10: the authentication middleware admits, with no API key check, all
OPTIONS requests and exactly the no-auth table entries (GET
`/api/v1/test-data`, POST `/api/v1/tenants`, GET/POST under the
`/api/v1/initialization/` prefix); every other request passes iff its
`X-API-Key` header is non-empty, resolves to a tenant id, and equals the
key stored for that tenant — otherwise the middleware aborts with 401. -/
theorem auth_middleware_access (extract : String → Except String Nat)
    (getTenant : Nat → Except String (Option Tenant))
    (method path apiKey : String) :
    (authMiddleware extract getTenant method path apiKey ≠ .abort401 ↔
      method = "OPTIONS" ∨ isNoAuthAPI path method = true ∨
        (apiKey ≠ "" ∧ ∃ tenantID t, extract apiKey = .ok tenantID ∧
          getTenant tenantID = .ok (some t) ∧ t.apiKey = apiKey)) ∧
    isNoAuthAPI "/api/v1/test-data" "GET" = true ∧
    isNoAuthAPI "/api/v1/tenants" "POST" = true ∧
    (∀ p m, hasPre p "/api/v1/initialization/" = true → (m = "GET" ∨ m = "POST") →
      isNoAuthAPI p m = true) ∧
    (∀ p m, isNoAuthAPI p m = true →
      (p = "/api/v1/test-data" ∧ m = "GET") ∨
      (p = "/api/v1/tenants" ∧ m = "POST") ∨
      (hasPre p "/api/v1/initialization/" = true ∧ (m = "GET" ∨ m = "POST"))) := by
  refine ⟨?_, by decide, by decide,
    fun p m hp hm => (isNoAuthAPI_iff p m).mpr (Or.inr (Or.inr ⟨hp, hm⟩)),
    fun p m h => (isNoAuthAPI_iff p m).mp h⟩
  unfold authMiddleware
  by_cases ho : method = "OPTIONS"
  · simp [ho]
  · by_cases hn : isNoAuthAPI path method = true
    · simp [ho, hn]
    · by_cases hk : apiKey = ""
      · simp [ho, hn, hk]
      · cases hex : extract apiKey with
        | error e => simp [ho, hn, hk, hex]
        | ok tenantID =>
          cases hgt : getTenant tenantID with
          | error e => simp [ho, hn, hk, hex, hgt]
          | ok oto =>
            cases oto with
            | none => simp [ho, hn, hk, hex, hgt]
            | some t =>
              by_cases hak : t.apiKey = apiKey
              · simp [ho, hn, hk, hex, hgt, hak]
              · simp [ho, hn, hk, hex, hgt, hak]

theorem auth_middleware_access_witness :
    (hasPre "/api/v1/initialization/config" "/api/v1/initialization/" = true ∧
      (("GET" : String) = "GET" ∨ ("GET" : String) = "POST")) ∧
    isNoAuthAPI "/api/v1/initialization/config" "GET" = true ∧
    authMiddleware (fun _ => .ok 1) (fun _ => .ok (some { id := 1, apiKey := "secret" }))
      "POST" "/api/v1/sessions" "secret" ≠ .abort401 :=
  ⟨⟨by decide, Or.inl rfl⟩,
   (auth_middleware_access (fun _ => .ok 1)
      (fun _ => .ok (some { id := 1, apiKey := "secret" }))
      "GET" "/api/v1/initialization/config" "").2.2.2.1
     "/api/v1/initialization/config" "GET" (by decide) (Or.inl rfl),
   (auth_middleware_access (fun _ => .ok 1)
      (fun _ => .ok (some { id := 1, apiKey := "secret" }))
      "POST" "/api/v1/sessions" "secret").1.mpr
     (Or.inr (Or.inr ⟨by decide, 1, { id := 1, apiKey := "secret" },
        rfl, rfl, rfl⟩))⟩

/-- One memory-manager operation never shrinks a stored stream's content:
the stored record survives and its content is extended by some suffix
(the delta on a matching update, nothing otherwise). -/
theorem memApplyOp_content_extends (st : MemStore) (op : StreamOp)
    (k : String × String) (i : StreamInfo) (h : st k = some i) :
    ∃ i' t, memApplyOp st op k = some i' ∧ i'.content = i.content ++ t := by
  cases op with
  | update s r d refs now =>
    cases hk : st (s, r) with
    | none =>
      refine ⟨i, "", ?_, by simp⟩
      simp [memApplyOp, memUpdateStream, hk, h]
    | some j =>
      by_cases he : k = (s, r)
      · subst he
        rw [h] at hk
        cases hk
        exact ⟨{ i with
            content := i.content ++ d,
            references := if refs.length > 0 then refs else i.references,
            lastUpdated := now }, d,
          by simp [memApplyOp, memUpdateStream, h], rfl⟩
      · refine ⟨i, "", ?_, by simp⟩
        simp [memApplyOp, memUpdateStream, hk, he, h]
  | complete s r now =>
    cases hk : st (s, r) with
    | none =>
      refine ⟨i, "", ?_, by simp⟩
      simp [memApplyOp, memCompleteStream, hk, h]
    | some j =>
      by_cases he : k = (s, r)
      · subst he
        rw [h] at hk
        cases hk
        exact ⟨{ i with isCompleted := true }, "",
          by simp [memApplyOp, memCompleteStream, h], by simp⟩
      · refine ⟨i, "", ?_, by simp⟩
        simp [memApplyOp, memCompleteStream, hk, he, h]

/-- Over any operation sequence, a stored stream's content only grows by
a suffix (memory manager). -/
theorem memApplyOps_content_extends (ops : List StreamOp) :
    ∀ (st : MemStore) (k : String × String) (i : StreamInfo), st k = some i →
      ∃ i' t, memApplyOps st ops k = some i' ∧ i'.content = i.content ++ t := by
  induction ops with
  | nil =>
    intro st k i h
    exact ⟨i, "", by simpa [memApplyOps] using h, by simp⟩
  | cons op ops ih =>
    intro st k i h
    obtain ⟨i₁, t₁, h₁, e₁⟩ := memApplyOp_content_extends st op k i h
    obtain ⟨i₂, t₂, h₂, e₂⟩ := ih (memApplyOp st op) k i₁ h₁
    refine ⟨i₂, t₁ ++ t₂, ?_, ?_⟩
    · simpa [memApplyOps] using h₂
    · rw [e₂, e₁, String.append_assoc]

/-- One Redis-manager operation never shrinks a stored stream's content. -/
theorem redisApplyOp_content_extends (pfx : String) (st : RedisStore)
    (op : StreamOp) (k : String) (i : StreamInfo) (h : st k = some i) :
    ∃ i' t, redisApplyOp pfx st op k = some i' ∧ i'.content = i.content ++ t := by
  cases op with
  | update s r d refs now =>
    cases hk : st (buildKey pfx s r) with
    | none =>
      refine ⟨i, "", ?_, by simp⟩
      simp [redisApplyOp, redisUpdateStream, hk, h]
    | some j =>
      by_cases he : k = buildKey pfx s r
      · subst he
        rw [h] at hk
        cases hk
        exact ⟨{ i with
            content := i.content ++ d,
            references := if refs.length > 0 then refs else i.references,
            lastUpdated := now }, d,
          by simp [redisApplyOp, redisUpdateStream, h], rfl⟩
      · refine ⟨i, "", ?_, by simp⟩
        simp [redisApplyOp, redisUpdateStream, hk, he, h]
  | complete s r now =>
    cases hk : st (buildKey pfx s r) with
    | none =>
      refine ⟨i, "", ?_, by simp⟩
      simp [redisApplyOp, redisCompleteStream, hk, h]
    | some j =>
      by_cases he : k = buildKey pfx s r
      · subst he
        rw [h] at hk
        cases hk
        exact ⟨{ i with isCompleted := true, lastUpdated := now }, "",
          by simp [redisApplyOp, redisCompleteStream, h], by simp⟩
      · refine ⟨i, "", ?_, by simp⟩
        simp [redisApplyOp, redisCompleteStream, hk, he, h]

/-- Over any operation sequence, a stored stream's content only grows by
a suffix (Redis manager). -/
theorem redisApplyOps_content_extends (pfx : String) (ops : List StreamOp) :
    ∀ (st : RedisStore) (k : String) (i : StreamInfo), st k = some i →
      ∃ i' t, redisApplyOps pfx st ops k = some i' ∧ i'.content = i.content ++ t := by
  induction ops with
  | nil =>
    intro st k i h
    exact ⟨i, "", by simpa [redisApplyOps] using h, by simp⟩
  | cons op ops ih =>
    intro st k i h
    obtain ⟨i₁, t₁, h₁, e₁⟩ := redisApplyOp_content_extends pfx st op k i h
    obtain ⟨i₂, t₂, h₂, e₂⟩ := ih (redisApplyOp pfx st op) k i₁ h₁
    refine ⟨i₂, t₁ ++ t₂, ?_, ?_⟩
    · simpa [redisApplyOps] using h₂
    · rw [e₂, e₁, String.append_assoc]

/-- C1: under both stream-manager implementations, the content of a
registered stream is prefix-monotone while its record lives: across any
sequence of update/complete operations the stored content is only ever
extended (so any earlier `get` observes a prefix of any later `get`), and
a single update on a present key appends exactly the given delta. -/
theorem stream_prefix_monotonicity :
    (∀ (st : MemStore) (ops : List StreamOp) (k : String × String)
        (i : StreamInfo), st k = some i →
      ∃ i' t, memApplyOps st ops k = some i' ∧ i'.content = i.content ++ t) ∧
    (∀ (pfx : String) (st : RedisStore) (ops : List StreamOp) (k : String)
        (i : StreamInfo), st k = some i →
      ∃ i' t, redisApplyOps pfx st ops k = some i' ∧ i'.content = i.content ++ t) ∧
    (∀ (st : MemStore) (s r d : String) (refs : List String) (now : Nat)
        (i : StreamInfo), st (s, r) = some i →
      ∃ st', memUpdateStream st s r d refs now = .ok st' ∧
        ∃ i', st' (s, r) = some i' ∧ i'.content = i.content ++ d) ∧
    (∀ (pfx : String) (st : RedisStore) (s r d : String) (refs : List String)
        (now : Nat) (i : StreamInfo), st (buildKey pfx s r) = some i →
      ∃ st', redisUpdateStream pfx st s r d refs now = .ok st' ∧
        ∃ i', st' (buildKey pfx s r) = some i' ∧ i'.content = i.content ++ d) := by
  refine ⟨fun st ops k i h => memApplyOps_content_extends ops st k i h,
    fun pfx st ops k i h => redisApplyOps_content_extends pfx ops st k i h,
    ?_, ?_⟩
  · intro st s r d refs now i h
    refine ⟨fun k => if k = (s, r) then
        some { i with
          content := i.content ++ d,
          references := if refs.length > 0 then refs else i.references,
          lastUpdated := now }
      else st k, by simp [memUpdateStream, h],
      ⟨{ i with
          content := i.content ++ d,
          references := if refs.length > 0 then refs else i.references,
          lastUpdated := now }, by simp, rfl⟩⟩
  · intro pfx st s r d refs now i h
    refine ⟨fun k => if k = buildKey pfx s r then
        some { i with
          content := i.content ++ d,
          references := if refs.length > 0 then refs else i.references,
          lastUpdated := now }
      else st k, by simp [redisUpdateStream, h],
      ⟨{ i with
          content := i.content ++ d,
          references := if refs.length > 0 then refs else i.references,
          lastUpdated := now }, by simp, rfl⟩⟩

theorem stream_prefix_monotonicity_witness :
    (((fun _ => some { sessionID := "s1", requestID := "r1", query := "q", content := "Hel", references := [], lastUpdated := 0, isCompleted := false }) : MemStore) ("s1", "r1") =
      some { sessionID := "s1", requestID := "r1", query := "q", content := "Hel", references := [], lastUpdated := 0, isCompleted := false }) ∧
    (∃ i' t, memApplyOps
        (fun _ => some { sessionID := "s1", requestID := "r1", query := "q", content := "Hel", references := [], lastUpdated := 0, isCompleted := false })
        [.update "s1" "r1" "lo" ["ref1"] 1, .complete "s1" "r1" 2]
        ("s1", "r1") = some i' ∧ i'.content = "Hel" ++ t) ∧
    (∃ i' t, redisApplyOps "stream"
        (fun _ => some { sessionID := "s1", requestID := "r1", query := "q", content := "Hel", references := [], lastUpdated := 0, isCompleted := false })
        [.update "s1" "r1" "lo" [] 1] (buildKey "stream" "s1" "r1") =
          some i' ∧ i'.content = "Hel" ++ t) ∧
    (∃ st', memUpdateStream
        (fun _ => some { sessionID := "s1", requestID := "r1", query := "q", content := "Hel", references := [], lastUpdated := 0, isCompleted := false }) "s1" "r1" "lo" [] 1 = .ok st' ∧
      ∃ i', st' ("s1", "r1") = some i' ∧ i'.content = "Hel" ++ "lo") ∧
    (∃ st', redisUpdateStream "stream"
        (fun _ => some { sessionID := "s1", requestID := "r1", query := "q", content := "Hel", references := [], lastUpdated := 0, isCompleted := false }) "s1" "r1" "lo" [] 1 = .ok st' ∧
      ∃ i', st' (buildKey "stream" "s1" "r1") = some i' ∧
        i'.content = "Hel" ++ "lo") :=
  ⟨rfl,
   stream_prefix_monotonicity.1 (fun _ => some { sessionID := "s1", requestID := "r1", query := "q", content := "Hel", references := [], lastUpdated := 0, isCompleted := false })
     [.update "s1" "r1" "lo" ["ref1"] 1, .complete "s1" "r1" 2] ("s1", "r1")
     { sessionID := "s1", requestID := "r1", query := "q", content := "Hel", references := [], lastUpdated := 0, isCompleted := false } rfl,
   stream_prefix_monotonicity.2.1 "stream" (fun _ => some { sessionID := "s1", requestID := "r1", query := "q", content := "Hel", references := [], lastUpdated := 0, isCompleted := false })
     [.update "s1" "r1" "lo" [] 1] (buildKey "stream" "s1" "r1")
     { sessionID := "s1", requestID := "r1", query := "q", content := "Hel", references := [], lastUpdated := 0, isCompleted := false } rfl,
   stream_prefix_monotonicity.2.2.1 (fun _ => some { sessionID := "s1", requestID := "r1", query := "q", content := "Hel", references := [], lastUpdated := 0, isCompleted := false }) "s1" "r1" "lo" [] 1
     { sessionID := "s1", requestID := "r1", query := "q", content := "Hel", references := [], lastUpdated := 0, isCompleted := false } rfl,
   stream_prefix_monotonicity.2.2.2 "stream" (fun _ => some { sessionID := "s1", requestID := "r1", query := "q", content := "Hel", references := [], lastUpdated := 0, isCompleted := false }) "s1" "r1" "lo" [] 1
     { sessionID := "s1", requestID := "r1", query := "q", content := "Hel", references := [], lastUpdated := 0, isCompleted := false } rfl⟩


/-- C4: updating or completing an absent (session-id, request-id) — for
example one whose record already expired — is a no-op under both
implementations: the call reports no error and the store is returned
unchanged. -/
theorem absent_stream_noop :
    (∀ (st : MemStore) (s r d : String) (refs : List String) (now : Nat),
      st (s, r) = none → memUpdateStream st s r d refs now = .ok st) ∧
    (∀ (st : MemStore) (s r : String),
      st (s, r) = none → memCompleteStream st s r = .ok st) ∧
    (∀ (pfx : String) (st : RedisStore) (s r d : String) (refs : List String)
        (now : Nat),
      st (buildKey pfx s r) = none →
        redisUpdateStream pfx st s r d refs now = .ok st) ∧
    (∀ (pfx : String) (st : RedisStore) (s r : String) (now : Nat),
      st (buildKey pfx s r) = none →
        redisCompleteStream pfx st s r now = .ok st) := by
  refine ⟨?_, ?_, ?_, ?_⟩
  · intro st s r d refs now h
    simp [memUpdateStream, h]
  · intro st s r h
    simp [memCompleteStream, h]
  · intro pfx st s r d refs now h
    simp [redisUpdateStream, h]
  · intro pfx st s r now h
    simp [redisCompleteStream, h]

theorem absent_stream_noop_witness :
    (((fun _ => none) : MemStore) ("s1", "r1") = none) ∧
    memUpdateStream (fun _ => none) "s1" "r1" "delta" [] 5 = .ok (fun _ => none) ∧
    memCompleteStream (fun _ => none) "s1" "r1" = .ok (fun _ => none) ∧
    (((fun _ => none) : RedisStore) (buildKey "stream" "s1" "r1") = none) ∧
    redisUpdateStream "stream" (fun _ => none) "s1" "r1" "delta" [] 5 =
      .ok (fun _ => none) ∧
    redisCompleteStream "stream" (fun _ => none) "s1" "r1" 5 =
      .ok (fun _ => none) :=
  ⟨rfl,
   absent_stream_noop.1 (fun _ => none) "s1" "r1" "delta" [] 5 rfl,
   absent_stream_noop.2.1 (fun _ => none) "s1" "r1" rfl,
   rfl,
   absent_stream_noop.2.2.1 "stream" (fun _ => none) "s1" "r1" "delta" [] 5 rfl,
   absent_stream_noop.2.2.2 "stream" (fun _ => none) "s1" "r1" 5 rfl⟩

/-- Memory manager: completing a present stream sets only the completion
flag, and once more than 30 seconds have passed the scheduled deletion has
fired, so a get returns absent. -/
theorem memCompleteT_flag_and_expiry (st : MemTimed) (s r : String)
    (now : Nat) (i : StreamInfo) (h : st.store (s, r) = some i) :
    (memCompleteStreamT st s r now).store (s, r) =
      some { i with isCompleted := true } ∧
    ∀ t, now + 30 < t →
      memGetStreamAt (memCompleteStreamT st s r now) t s r = none := by
  constructor
  · simp [memCompleteStreamT, h]
  · intro t ht
    simp [memGetStreamAt, memElapse, memCompleteStreamT, h, List.any_append,
      Nat.le_of_lt ht]

/-- Redis manager: completing a present stream sets the completion flag
(refreshing only `lastUpdated`), and once more than 30 seconds have passed
the scheduled `DEL` has fired, so a get returns absent. -/
theorem redisCompleteT_flag_and_expiry (pfx : String) (st : RedisTimed)
    (s r : String) (now : Nat) (i : StreamInfo)
    (h : st.store (buildKey pfx s r) = some i) :
    (redisCompleteStreamT pfx st s r now).store (buildKey pfx s r) =
      some { i with isCompleted := true, lastUpdated := now } ∧
    ∀ t, now + 30 < t →
      redisGetStreamAt pfx (redisCompleteStreamT pfx st s r now) t s r = none := by
  constructor
  · simp [redisCompleteStreamT, h]
  · intro t ht
    simp [redisGetStreamAt, redisElapse, redisCompleteStreamT, h,
      List.any_append, Nat.le_of_lt ht]

/-- C5: under both implementations, completing an existing stream sets
`is_completed = true` while leaving the accumulated content, the query and
the references unchanged (the memory variant changes no other field; the
Redis variant also refreshes `last_updated`), and the record is deleted by
the deletion scheduled 30 seconds after completion, so a get issued more
than 30 seconds later returns absent. -/
theorem complete_marks_and_expires :
    (∀ (st : MemTimed) (s r : String) (now : Nat) (i : StreamInfo),
      st.store (s, r) = some i →
        (memCompleteStreamT st s r now).store (s, r) =
          some { i with isCompleted := true } ∧
        ∀ t, now + 30 < t →
          memGetStreamAt (memCompleteStreamT st s r now) t s r = none) ∧
    (∀ (pfx : String) (st : RedisTimed) (s r : String) (now : Nat)
        (i : StreamInfo), st.store (buildKey pfx s r) = some i →
      (redisCompleteStreamT pfx st s r now).store (buildKey pfx s r) =
        some { i with isCompleted := true, lastUpdated := now } ∧
      ∀ t, now + 30 < t →
        redisGetStreamAt pfx (redisCompleteStreamT pfx st s r now) t s r = none) :=
  ⟨fun st s r now i h => memCompleteT_flag_and_expiry st s r now i h,
   fun pfx st s r now i h => redisCompleteT_flag_and_expiry pfx st s r now i h⟩

theorem complete_marks_and_expires_witness :
    (({ store := fun _ => some { sessionID := "s1", requestID := "r1", query := "q", content := "Hello", references := ["ref1"], lastUpdated := 7, isCompleted := false }, pending := [] } :
        MemTimed).store ("s1", "r1") =
      some { sessionID := "s1", requestID := "r1", query := "q", content := "Hello", references := ["ref1"], lastUpdated := 7, isCompleted := false }) ∧ (10 : Nat) + 30 < 41 ∧
    ((memCompleteStreamT
        { store := fun _ => some { sessionID := "s1", requestID := "r1", query := "q", content := "Hello", references := ["ref1"], lastUpdated := 7, isCompleted := false }, pending := [] }
        "s1" "r1" 10).store ("s1", "r1") =
      some { sessionID := "s1", requestID := "r1", query := "q", content := "Hello", references := ["ref1"], lastUpdated := 7, isCompleted := true }) ∧
    memGetStreamAt
      (memCompleteStreamT
        { store := fun _ => some { sessionID := "s1", requestID := "r1", query := "q", content := "Hello", references := ["ref1"], lastUpdated := 7, isCompleted := false }, pending := [] }
        "s1" "r1" 10) 41 "s1" "r1" = none ∧
    ((redisCompleteStreamT "stream"
        { store := fun _ => some { sessionID := "s1", requestID := "r1", query := "q", content := "Hello", references := ["ref1"], lastUpdated := 7, isCompleted := false }, pending := [] }
        "s1" "r1" 10).store (buildKey "stream" "s1" "r1") =
      some { sessionID := "s1", requestID := "r1", query := "q", content := "Hello", references := ["ref1"], lastUpdated := 10, isCompleted := true }) ∧
    redisGetStreamAt "stream"
      (redisCompleteStreamT "stream"
        { store := fun _ => some { sessionID := "s1", requestID := "r1", query := "q", content := "Hello", references := ["ref1"], lastUpdated := 7, isCompleted := false }, pending := [] }
        "s1" "r1" 10) 41 "s1" "r1" = none := by
  have hmem := complete_marks_and_expires.1
    { store := fun _ => some { sessionID := "s1", requestID := "r1", query := "q", content := "Hello", references := ["ref1"], lastUpdated := 7, isCompleted := false }, pending := [] }
    "s1" "r1" 10 _ rfl
  have hredis := complete_marks_and_expires.2 "stream"
    { store := fun _ => some { sessionID := "s1", requestID := "r1", query := "q", content := "Hello", references := ["ref1"], lastUpdated := 7, isCompleted := false }, pending := [] }
    "s1" "r1" 10 _ rfl
  exact ⟨rfl, by decide, hmem.1, hmem.2 41 (by decide),
    hredis.1, hredis.2 41 (by decide)⟩

end WeKnoRust
